import Mathlib

/-!
Shallow embedding of `src/PropertyInterceptor.js`.

The JavaScript engine attaches three handler chains and a cached value to the
accessor functions of an intercepted property:
  * `descriptor.get.value`  — the cached value,
  * `descriptor.get.after`  — the afterGet chain (appended, run front-to-back),
  * `descriptor.get.oldGet` — a getter that existed before interception,
  * `descriptor.set.before` — the beforeSet chain (unshifted, run front-to-back),
  * `descriptor.set.after`  — the afterSet chain (appended, run front-to-back).

We model JavaScript values with an inductive `JSVal` (with an explicit `nan`
so that strict equality `===` can be modelled faithfully: `NaN !== NaN`),
callbacks as pure functions that may raise (`Except Nat`), and the observable
behaviour of an access as the returned result, the new field state, and a
trace of events (handler invocations and invocations of the prior getter).
A pre-existing getter is modelled as returning a fixed value; the claims we
settle only depend on when it is invoked and on the value it supplies.
-/

namespace PropertyInterceptor

/-- JavaScript values, as far as the interceptor engine observes them:
`undefined`, numbers (with `nan` kept apart so `===` can be modelled),
strings, and callables identified by reference. -/
inductive JSVal where
  | undef
  | num (n : Int)
  | nan
  | str (s : String)
  | fn (id : Nat)
deriving DecidableEq

/-- `typeof(value)==="function"` (source lines 108, 144). -/
def JSVal.isFn : JSVal → Bool
  | .fn _ => true
  | _ => false

/-- JavaScript strict equality `===`: `NaN` compares unequal to everything,
itself included; otherwise values compare structurally (functions by
reference, which `fn id` models). -/
def strictEq : JSVal → JSVal → Bool
  | .nan, _ => false
  | _, .nan => false
  | a, b => a == b

/-- A registered callback. `hid` identifies the handler in event traces;
`run` is the callback body, which may raise (modelled by `Except`).
The engine wraps the user callback in a closure fixing the object and the
property name (source lines 76, 123, 159), so a handler is a function of the
value alone. -/
structure Handler where
  hid : Nat
  run : JSVal → Except Nat JSVal

/-- A handler that never raises and transforms the value by `f`. -/
def totalH (i : Nat) (f : JSVal → JSVal) : Handler :=
  ⟨i, fun v => .ok (f v)⟩

/-- A handler that always raises error `e` (a vetoing handler). -/
def throwH (i : Nat) (e : Nat) : Handler :=
  ⟨i, fun _ => .error e⟩

/-- Observable events of an access: a handler invoked with an argument, or
the pre-existing (prior) getter invoked. -/
inductive Event where
  | hookCall (hid : Nat) (arg : JSVal)
  | priorRead
deriving DecidableEq

/-- The get side of a property descriptor: no getter, an external getter
(returning `pv`), or the engine getter with its attached state
(`descriptor.get.value`, `descriptor.get.after`, `descriptor.get.oldGet`). -/
inductive GetSlot where
  | noGet
  | ext (pv : JSVal)
  | engine (value : JSVal) (after : List Handler) (oldGet : Option JSVal)

/-- The set side of a property descriptor: no setter, an external setter, or
the engine setter with its chains (`descriptor.set.before`,
`descriptor.set.after`); `oldset` records whether an external setter was
displaced (source lines 132, 168 — saved but never invoked). -/
inductive SetSlot where
  | noSet
  | ext
  | engine (before : List Handler) (afterS : List Handler) (oldset : Bool)

/-- A property of an object: absent, a plain data property, or an accessor
property. -/
inductive Field where
  | absent
  | data (v : JSVal)
  | acc (g : GetSlot) (s : SetSlot)

/-- Run a value-threading chain (the afterGet and beforeSet chains,
source lines 42-44 and 54-56): each handler receives the previous handler's
output; a raise aborts the rest of the chain. Returns the final value (or
the error) and the trace of invocations. -/
def runChain : List Handler → JSVal → Except Nat JSVal × List Event
  | [], v => (.ok v, [])
  | h :: rest, v =>
    match h.run v with
    | .error e => (.error e, [.hookCall h.hid v])
    | .ok v2 => ((runChain rest v2).1, .hookCall h.hid v :: (runChain rest v2).2)

/-- Run an observer chain (the afterSet chain, source lines 61-63): every
handler receives the same committed value and its return value is discarded;
a raise aborts the rest of the chain. -/
def runObs : List Handler → JSVal → Option Nat × List Event
  | [], _ => (none, [])
  | h :: rest, v =>
    match h.run v with
    | .error e => (some e, [.hookCall h.hid v])
    | .ok _ => ((runObs rest v).1, .hookCall h.hid v :: (runObs rest v).2)

/-- Source line 40: `value = (descriptor.get.value===undefined &&
descriptor.get.oldGet ? descriptor.get.oldGet() : descriptor.get.value)`.
Returns the starting value of a read and the events it produced. -/
def seedValue (value : JSVal) (oldGet : Option JSVal) : JSVal × List Event :=
  if value = JSVal.undef then
    match oldGet with
    | some pv => (pv, [Event.priorRead])
    | none => (value, [])
  else (value, [])

/-- Source `function get(descriptor)`, lines 38-48: seed the starting value,
run the afterGet chain, store the final value as the new cached value and
return it. On a raise the store (line 46) is not reached, so the cached
value is unchanged. Returns (result, new cached value, events). -/
def get (value : JSVal) (after : List Handler) (oldGet : Option JSVal) :
    Except Nat JSVal × JSVal × List Event :=
  match (runChain after (seedValue value oldGet).1).1 with
  | .ok v2 =>
      (.ok v2, v2, (seedValue value oldGet).2 ++ (runChain after (seedValue value oldGet).1).2)
  | .error e =>
      (.error e, value, (seedValue value oldGet).2 ++ (runChain after (seedValue value oldGet).1).2)

/-- Source `function set(descriptor, value)`, lines 50-66: snapshot the
cached value, run the beforeSet chain (a raise aborts before the commit,
leaving the cached value unchanged), commit the transformed value, and run
the afterSet chain only when the committed value is `!==` the snapshot.
Returns (result, new cached value, events). -/
def set (gv : JSVal) (before afterS : List Handler) (v : JSVal) :
    Except Nat JSVal × JSVal × List Event :=
  match (runChain before v).1 with
  | .error e => (.error e, gv, (runChain before v).2)
  | .ok v2 =>
    if strictEq v2 gv then (.ok v2, v2, (runChain before v).2)
    else
      match (runObs afterS v2).1 with
      | none => (.ok v2, v2, (runChain before v).2 ++ (runObs afterS v2).2)
      | some e => (.error e, v2, (runChain before v).2 ++ (runObs afterS v2).2)

/-- Reading the property: a data property yields its value, an accessor
dispatches to its getter (the engine getter updates its cached value), an
absent property or an accessor without a getter yields `undefined`. This is
also the computation of source lines 75, 107, 143
(`descriptor.get ? descriptor.get() : descriptor.value`). -/
def read : Field → Except Nat JSVal × Field × List Event
  | .absent => (.ok .undef, .absent, [])
  | .data v => (.ok v, .data v, [])
  | .acc .noGet s => (.ok .undef, .acc .noGet s, [])
  | .acc (.ext pv) s => (.ok pv, .acc (.ext pv) s, [.priorRead])
  | .acc (.engine value after oldGet) s =>
      ((get value after oldGet).1,
       .acc (.engine (get value after oldGet).2.1 after oldGet) s,
       (get value after oldGet).2.2)

/-- Writing the property: assignment to a data or absent property stores the
value; an engine setter runs the `set` algorithm (whose commit lands in the
engine getter's cached value); writes through external or missing setters
do not touch engine state. -/
def write (f : Field) (v : JSVal) : Except Nat JSVal × Field × List Event :=
  match f with
  | .absent => (.ok v, .data v, [])
  | .data _ => (.ok v, .data v, [])
  | .acc (.engine gv aft og) (.engine bf afs os) =>
      ((set gv bf afs v).1,
       .acc (.engine (set gv bf afs v).2.1 aft og) (.engine bf afs os),
       (set gv bf afs v).2.2)
  | .acc g s => (.ok v, .acc g s, [])

/-- Outcome of an install call: the object (for chaining) or the `false`
sentinel returned when the field's value is callable. -/
inductive InstallOutcome where
  | obj
  | notApplicable
deriving DecidableEq

/-- Source lines 78-96 of `afterGet`, applied to the state after the initial
invocation: if the engine getter is present, push the handler onto its
after chain; otherwise create an engine getter seeded with the observed
value (saving an external getter as `oldGet`); and create a pass-through
engine setter only when no setter exists. -/
def afterGetCore (f : Field) (value : JSVal) (cb : Handler) : Field :=
  let g2 : GetSlot :=
    match f with
    | .acc (.engine v aft og) _ => .engine v (aft ++ [cb]) og
    | .acc (.ext pv) _ => .engine value [cb] (some pv)
    | _ => .engine value [cb] none
  let s2 : SetSlot :=
    match f with
    | .acc _ (.engine b a os) => .engine b a os
    | .acc _ .ext => .ext
    | _ => .engine [] [] false
  .acc g2 s2

/-- Source lines 111-117 / 147-153: keep an engine getter that already has an
after chain, otherwise replace the getter with a fresh engine getter seeded
with the observed value (saving an external getter as `oldGet`). -/
def ensureGet (f : Field) (value : JSVal) : GetSlot :=
  match f with
  | .acc (.engine v aft og) _ => .engine v aft og
  | .acc (.ext pv) _ => .engine value [] (some pv)
  | _ => .engine value [] none

/-- Source lines 118-122 / 154-158: keep an existing setter, otherwise create
the engine setter with empty chains. -/
def ensureSet (f : Field) : SetSlot :=
  match f with
  | .acc _ (.engine b a os) => .engine b a os
  | .acc _ .ext => .ext
  | _ => .engine [] [] false

/-- Source lines 111-133 of `beforeSet` after the guard: ensure the engine
accessors, then unshift the handler onto the before chain (lines 125-126);
an external setter that survived the ensure step has no `before` array and
is displaced (lines 127-132, `oldset` saved but never invoked). -/
def beforeSetCore (f : Field) (value : JSVal) (cb : Handler) : Field :=
  let s2 : SetSlot :=
    match ensureSet f with
    | .engine b a os => .engine (cb :: b) a os
    | _ => .engine [cb] [] true
  .acc (ensureGet f value) s2

/-- Source lines 147-169 of `afterSet` after the guard: ensure the engine
accessors, then push the handler onto the after-set chain (lines 161-162);
an external setter that survived the ensure step is displaced
(lines 163-168). -/
def afterSetCore (f : Field) (value : JSVal) (cb : Handler) : Field :=
  let s2 : SetSlot :=
    match ensureSet f with
    | .engine b a os => .engine b (a ++ [cb]) os
    | _ => .engine [] [cb] true
  .acc (ensureGet f value) s2

/-- Source `PropertyInterceptor.prototype.afterGet`, lines 72-98: read the
current value (line 75 — this invokes the installed getter, chains and all,
when the field is already intercepted; a raise from a chained handler
propagates), then rewrite the accessors and return the object. There is no
guard: this operation never returns the `false` sentinel. -/
def afterGet (f : Field) (cb : Handler) : Except Nat InstallOutcome × Field × List Event :=
  match (read f).1 with
  | .error e => (.error e, (read f).2.1, (read f).2.2)
  | .ok value => (.ok .obj, afterGetCore ((read f).2.1) value cb, (read f).2.2)

/-- Source `PropertyInterceptor.prototype.beforeSet`, lines 104-139: read the
current value (line 107); if it is callable return the `false` sentinel
without touching the field (lines 108-110); otherwise ensure the accessors
and unshift the handler. -/
def beforeSet (f : Field) (cb : Handler) : Except Nat InstallOutcome × Field × List Event :=
  match (read f).1 with
  | .error e => (.error e, (read f).2.1, (read f).2.2)
  | .ok value =>
    if value.isFn then (.ok .notApplicable, (read f).2.1, (read f).2.2)
    else (.ok .obj, beforeSetCore ((read f).2.1) value cb, (read f).2.2)

/-- Source `PropertyInterceptor.prototype.afterSet`, lines 140-174: read the
current value (line 143); if it is callable return the `false` sentinel
without touching the field (lines 144-146); otherwise ensure the accessors
and push the handler. -/
def afterSet (f : Field) (cb : Handler) : Except Nat InstallOutcome × Field × List Event :=
  match (read f).1 with
  | .error e => (.error e, (read f).2.1, (read f).2.2)
  | .ok value =>
    if value.isFn then (.ok .notApplicable, (read f).2.1, (read f).2.2)
    else (.ok .obj, afterSetCore ((read f).2.1) value cb, (read f).2.2)

/-- A list of non-raising handlers described by (id, transform) pairs. -/
def totalChain (ps : List (Nat × (JSVal → JSVal))) : List Handler :=
  ps.map fun p => totalH p.1 p.2

/-- The value obtained by threading `v` through the transforms of `ps` in
order. -/
def threadVals (ps : List (Nat × (JSVal → JSVal))) (v : JSVal) : JSVal :=
  ps.foldl (fun a p => p.2 a) v

/-- The trace produced by threading `v` through `totalChain ps`. -/
def totalEvts (ps : List (Nat × (JSVal → JSVal))) (v : JSVal) : List Event :=
  match ps with
  | [] => []
  | p :: rest => .hookCall p.1 v :: totalEvts rest (p.2 v)

/-- JavaScript `v + 1` on numbers, as in the spec scenario `v=>v+1`
(arithmetic on a non-number yields `NaN`). -/
def addOne : JSVal → JSVal
  | .num n => .num (n + 1)
  | _ => .nan

/-- JavaScript `v * 2` on numbers, as in the spec scenario `v=>v*2`. -/
def double : JSVal → JSVal
  | .num n => .num (2 * n)
  | _ => .nan

theorem runChain_totalChain_app (ps : List (Nat × (JSVal → JSVal))) (rest : List Handler)
    (v : JSVal) :
    runChain (totalChain ps ++ rest) v
      = ((runChain rest (threadVals ps v)).1,
         totalEvts ps v ++ (runChain rest (threadVals ps v)).2) := by
  induction ps generalizing v with
  | nil => simp [totalChain, threadVals, totalEvts]
  | cons p ps ih =>
    have hstep : runChain (totalChain (p :: ps) ++ rest) v
        = ((runChain (totalChain ps ++ rest) (p.2 v)).1,
           Event.hookCall p.1 v :: (runChain (totalChain ps ++ rest) (p.2 v)).2) := rfl
    rw [hstep, ih (p.2 v)]
    simp [threadVals, totalEvts]

theorem runChain_totalChain (ps : List (Nat × (JSVal → JSVal))) (v : JSVal) :
    runChain (totalChain ps) v = (.ok (threadVals ps v), totalEvts ps v) := by
  have h := runChain_totalChain_app ps [] v
  simpa [runChain] using h

theorem runObs_totalChain (ps : List (Nat × (JSVal → JSVal))) (v : JSVal) :
    runObs (totalChain ps) v = (none, ps.map fun p => Event.hookCall p.1 v) := by
  induction ps with
  | nil => simp [totalChain, runObs]
  | cons p ps ih =>
    have hstep : runObs (totalChain (p :: ps)) v
        = ((runObs (totalChain ps) v).1,
           Event.hookCall p.1 v :: (runObs (totalChain ps) v).2) := rfl
    rw [hstep, ih]
    simp

theorem priorRead_notin_runChain (hs : List Handler) (v : JSVal) :
    Event.priorRead ∉ (runChain hs v).2 := by
  induction hs generalizing v with
  | nil => simp [runChain]
  | cons h rest ih =>
    simp only [runChain]
    cases hr : h.run v with
    | error e => simp
    | ok v2 => simpa using ih v2

theorem get_store_of_ok (v : JSVal) (ag : List Handler) (og : Option JSVal) (w : JSVal)
    (h : (get v ag og).1 = Except.ok w) : (get v ag og).2.1 = w := by
  unfold get at h ⊢
  revert h
  cases hr : (runChain ag (seedValue v og).1).1 with
  | error e => intro h; simp at h
  | ok u => intro h; simp_all

theorem get_evts (v : JSVal) (ag : List Handler) (og : Option JSVal) :
    (get v ag og).2.2 = (seedValue v og).2 ++ (runChain ag (seedValue v og).1).2 := by
  unfold get
  cases (runChain ag (seedValue v og).1).1 <;> rfl

theorem seedValue_none (v : JSVal) : seedValue v none = (v, []) := by
  unfold seedValue
  split <;> rfl

theorem get_nil_none (v : JSVal) : get v [] none = (.ok v, v, []) := by
  unfold get
  rw [seedValue_none]
  rfl

theorem get_totalChain_none (v : JSVal) (ps : List (Nat × (JSVal → JSVal))) :
    get v (totalChain ps) none
      = (.ok (threadVals ps v), threadVals ps v, totalEvts ps v) := by
  unfold get
  rw [seedValue_none, show ((v, ([] : List Event)).1) = v from rfl, runChain_totalChain]
  rfl

theorem set_totalChain_noAfter (gv v : JSVal) (ps : List (Nat × (JSVal → JSVal))) :
    set gv (totalChain ps) [] v
      = (Except.ok (threadVals ps v), threadVals ps v, totalEvts ps v) := by
  unfold set
  rw [runChain_totalChain]
  show (if strictEq (threadVals ps v) gv
        then (Except.ok (threadVals ps v), threadVals ps v, totalEvts ps v)
        else (Except.ok (threadVals ps v), threadVals ps v, totalEvts ps v ++ [])) = _
  split <;> simp

/-- Claim C1: with afterGet hooks H1 then H2 installed, a read threads the
starting value through H1 then H2 (H1's output is H2's input, as the trace
shows), stores the final value as the new cached value and returns it; on
`{x: 1}` with the single hook `v=>v+1`, the first read yields 2 and the
second read yields 3, because the chain is re-applied to the stored value. -/
theorem C1_afterGet_fifo_reapplies_stored :
    (∀ (f1 f2 : JSVal → JSVal) (v : JSVal) (og : Option JSVal) (s : SetSlot),
      v ≠ JSVal.undef →
      read (Field.acc (GetSlot.engine v [totalH 1 f1, totalH 2 f2] og) s)
        = (Except.ok (f2 (f1 v)),
           Field.acc (GetSlot.engine (f2 (f1 v)) [totalH 1 f1, totalH 2 f2] og) s,
           [Event.hookCall 1 v, Event.hookCall 2 (f1 v)]))
    ∧ (read (afterGet (Field.data (JSVal.num 1)) (totalH 1 addOne)).2.1).1
        = Except.ok (JSVal.num 2)
    ∧ (read (read (afterGet (Field.data (JSVal.num 1)) (totalH 1 addOne)).2.1).2.1).1
        = Except.ok (JSVal.num 3) := by
  refine ⟨?_, rfl, rfl⟩
  intro f1 f2 v og s hv
  cases v with
  | undef => exact absurd rfl hv
  | num n => rfl
  | nan => rfl
  | str s2 => rfl
  | fn k => rfl

theorem C1_afterGet_fifo_reapplies_stored_witness :
    read (Field.acc (GetSlot.engine (JSVal.num 1) [totalH 1 addOne, totalH 2 addOne] none)
        (SetSlot.engine [] [] false))
      = (Except.ok (JSVal.num 3),
         Field.acc (GetSlot.engine (JSVal.num 3) [totalH 1 addOne, totalH 2 addOne] none)
           (SetSlot.engine [] [] false),
         [Event.hookCall 1 (JSVal.num 1), Event.hookCall 2 (JSVal.num 2)]) :=
  C1_afterGet_fifo_reapplies_stored.1 addOne addOne (JSVal.num 1) none
    (SetSlot.engine [] [] false) (by decide)

/-- Claim C4: when a beforeSet handler raises, the failure propagates out of
the write, the remaining beforeSet handlers do not run, the cached value is
unchanged (no commit), and no afterSet handler runs — for any prefix of
non-raising handlers before the raising one, any handlers after it, and any
afterSet chain. -/
theorem C4_veto_aborts_write :
    ∀ (ps : List (Nat × (JSVal → JSVal))) (e : Nat) (rest : List Handler)
      (cached v : JSVal) (ag : List Handler) (og : Option JSVal)
      (afs : List Handler) (os : Bool),
      write (Field.acc (GetSlot.engine cached ag og)
               (SetSlot.engine (totalChain ps ++ throwH 0 e :: rest) afs os)) v
        = (Except.error e,
           Field.acc (GetSlot.engine cached ag og)
             (SetSlot.engine (totalChain ps ++ throwH 0 e :: rest) afs os),
           totalEvts ps v ++ [Event.hookCall 0 (threadVals ps v)]) := by
  intro ps e rest cached v ag og afs os
  have hch : runChain (totalChain ps ++ throwH 0 e :: rest) v
      = (.error e, totalEvts ps v ++ [Event.hookCall 0 (threadVals ps v)]) := by
    rw [runChain_totalChain_app]
    rfl
  have hset : set cached (totalChain ps ++ throwH 0 e :: rest) afs v
      = (.error e, cached, totalEvts ps v ++ [Event.hookCall 0 (threadVals ps v)]) := by
    unfold set
    rw [hch]
  show ((set cached (totalChain ps ++ throwH 0 e :: rest) afs v).1,
        Field.acc
          (GetSlot.engine (set cached (totalChain ps ++ throwH 0 e :: rest) afs v).2.1 ag og)
          (SetSlot.engine (totalChain ps ++ throwH 0 e :: rest) afs os),
        (set cached (totalChain ps ++ throwH 0 e :: rest) afs v).2.2) = _
  rw [hset]

/-- Claim C7, counterexample: the spec says the prior getter is never
re-invoked after the first read.  Take a field whose pre-existing getter
returns 5, install an identity afterGet hook (this seeds the cached value
with 5), perform a first read (which does not consult the prior getter),
then commit `undefined` by writing it; the next read starts with a cached
value of `undefined` and re-invokes the prior getter, as its trace shows. -/
theorem C7_priorReader_counterexample :
    (read (write (read (afterGet (Field.acc (GetSlot.ext (JSVal.num 5)) SetSlot.noSet)
        (totalH 1 fun v => v)).2.1).2.1 JSVal.undef).2.1).2.2
      = [Event.priorRead, Event.hookCall 1 (JSVal.num 5)] := rfl

/-- Claim C7 as amended: the prior getter is consulted exactly on reads that
begin with a cached value of `undefined` — it seeds the value on such reads
(including re-reads after a committed `undefined`), and a read beginning
with any defined cached value never invokes it. -/
theorem C7_priorReader_amended :
    (∀ (v : JSVal) (ag : List Handler) (og : Option JSVal) (s : SetSlot),
      v ≠ JSVal.undef →
      Event.priorRead ∉ (read (Field.acc (GetSlot.engine v ag og) s)).2.2)
    ∧ (∀ (pv : JSVal) (ag : List Handler) (s : SetSlot),
      (read (Field.acc (GetSlot.engine JSVal.undef ag (some pv)) s)).2.2
          = Event.priorRead :: (runChain ag pv).2
        ∧ Event.priorRead ∉ (runChain ag pv).2) := by
  constructor
  · intro v ag og s hv
    show Event.priorRead ∉ (get v ag og).2.2
    rw [get_evts]
    have hs : seedValue v og = (v, []) := by simp [seedValue, hv]
    rw [hs]
    simpa using priorRead_notin_runChain ag v
  · intro pv ag s
    refine ⟨?_, priorRead_notin_runChain ag pv⟩
    show (get JSVal.undef ag (some pv)).2.2 = _
    rw [get_evts]
    rfl

theorem C7_priorReader_amended_witness :
    Event.priorRead ∉
      (read (Field.acc (GetSlot.engine (JSVal.num 5) [totalH 1 fun v => v] (some (JSVal.num 5)))
          SetSlot.noSet)).2.2 :=
  C7_priorReader_amended.1 (JSVal.num 5) [totalH 1 fun v => v] (some (JSVal.num 5))
    SetSlot.noSet (by decide)

/-- Claim C10: since the change-detection gate uses `!==`, a write that
commits `NaN` while the pre-write cached value is also `NaN` always runs the
entire afterSet chain (here an arbitrary chain of non-raising handlers, each
invoked with the committed `NaN`), even though the stored value is
observationally unchanged. -/
theorem C10_nan_writes_not_suppressed :
    ∀ (ps : List (Nat × (JSVal → JSVal))) (ag : List Handler) (og : Option JSVal) (os : Bool),
      write (Field.acc (GetSlot.engine JSVal.nan ag og)
               (SetSlot.engine [] (totalChain ps) os)) JSVal.nan
        = (Except.ok JSVal.nan,
           Field.acc (GetSlot.engine JSVal.nan ag og) (SetSlot.engine [] (totalChain ps) os),
           ps.map fun p => Event.hookCall p.1 JSVal.nan) := by
  intro ps ag og os
  have h1 : set JSVal.nan [] (totalChain ps) JSVal.nan
      = (match (runObs (totalChain ps) JSVal.nan).1 with
         | none => (Except.ok JSVal.nan, JSVal.nan, (runObs (totalChain ps) JSVal.nan).2)
         | some e => (Except.error e, JSVal.nan, (runObs (totalChain ps) JSVal.nan).2)) := rfl
  rw [runObs_totalChain] at h1
  show ((set JSVal.nan [] (totalChain ps) JSVal.nan).1,
        Field.acc (GetSlot.engine (set JSVal.nan [] (totalChain ps) JSVal.nan).2.1 ag og)
          (SetSlot.engine [] (totalChain ps) os),
        (set JSVal.nan [] (totalChain ps) JSVal.nan).2.2) = _
  rw [h1]

/-- Claim C2: beforeSet hooks B1 then B2 (installed in that order) form a
LIFO chain, so a write invokes B2 before B1 (the trace shows B2 receiving
the incoming value and B1 receiving B2's output), threads the value through
the chain, commits the final transformed value as the cached value and
returns it; the scenario `installBeforeSet(obj,"y", v=>v*2); obj.y = 5`
commits 10. -/
theorem C2_beforeSet_lifo_commits :
    (∀ (v0 : JSVal) (g1 g2 : JSVal → JSVal),
      v0.isFn = false →
      (beforeSet ((beforeSet (Field.data v0) (totalH 1 g1)).2.1) (totalH 2 g2)).2.1
        = Field.acc (GetSlot.engine v0 [] none)
            (SetSlot.engine [totalH 2 g2, totalH 1 g1] [] false))
    ∧ (∀ (cached v : JSVal) (g1 g2 : JSVal → JSVal) (ag : List Handler) (og : Option JSVal),
      write (Field.acc (GetSlot.engine cached ag og)
               (SetSlot.engine [totalH 2 g2, totalH 1 g1] [] false)) v
        = (Except.ok (g1 (g2 v)),
           Field.acc (GetSlot.engine (g1 (g2 v)) ag og)
             (SetSlot.engine [totalH 2 g2, totalH 1 g1] [] false),
           [Event.hookCall 2 v, Event.hookCall 1 (g2 v)]))
    ∧ write ((beforeSet (Field.data (JSVal.num 1)) (totalH 5 double)).2.1) (JSVal.num 5)
        = (Except.ok (JSVal.num 10),
           Field.acc (GetSlot.engine (JSVal.num 10) [] none)
             (SetSlot.engine [totalH 5 double] [] false),
           [Event.hookCall 5 (JSVal.num 5)]) := by
  refine ⟨?_, ?_, rfl⟩
  · intro v0 g1 g2 hfn
    have h1 : beforeSet (Field.data v0) (totalH 1 g1)
        = if v0.isFn then (Except.ok InstallOutcome.notApplicable, Field.data v0, [])
          else (Except.ok InstallOutcome.obj,
                Field.acc (GetSlot.engine v0 [] none)
                  (SetSlot.engine [totalH 1 g1] [] false), []) := rfl
    rw [hfn] at h1
    simp only [Bool.false_eq_true, if_false] at h1
    rw [h1]
    have hread : read (Field.acc (GetSlot.engine v0 [] none)
          (SetSlot.engine [totalH 1 g1] [] false))
        = (Except.ok v0,
           Field.acc (GetSlot.engine v0 [] none) (SetSlot.engine [totalH 1 g1] [] false),
           []) := by
      show ((get v0 [] none).1,
            Field.acc (GetSlot.engine (get v0 [] none).2.1 [] none)
              (SetSlot.engine [totalH 1 g1] [] false),
            (get v0 [] none).2.2) = _
      rw [get_nil_none]
    unfold beforeSet
    rw [hread]
    simp [hfn, beforeSetCore, ensureGet, ensureSet]
  · intro cached v g1 g2 ag og
    have hset : set cached [totalH 2 g2, totalH 1 g1] [] v
        = (Except.ok (g1 (g2 v)), g1 (g2 v),
           [Event.hookCall 2 v, Event.hookCall 1 (g2 v)]) :=
      set_totalChain_noAfter cached v [(2, g2), (1, g1)]
    show ((set cached [totalH 2 g2, totalH 1 g1] [] v).1,
          Field.acc (GetSlot.engine (set cached [totalH 2 g2, totalH 1 g1] [] v).2.1 ag og)
            (SetSlot.engine [totalH 2 g2, totalH 1 g1] [] false),
          (set cached [totalH 2 g2, totalH 1 g1] [] v).2.2) = _
    rw [hset]

theorem C2_beforeSet_lifo_commits_witness :
    (beforeSet ((beforeSet (Field.data (JSVal.num 1)) (totalH 1 double)).2.1)
        (totalH 2 addOne)).2.1
      = Field.acc (GetSlot.engine (JSVal.num 1) [] none)
          (SetSlot.engine [totalH 2 addOne, totalH 1 double] [] false) :=
  C2_beforeSet_lifo_commits.1 (JSVal.num 1) double addOne (by decide)

/-- Claim C3: afterSet hooks A1 then A2 (installed in that order) form a FIFO
chain; a write runs both, in registration order, after the commit, each
receiving the committed value (their return values are discarded: the
result does not depend on them), and only when the committed value differs
from the pre-write cached value under strict equality; in particular a
write whose before-chain maps the incoming value to a value strictly equal
to the cached value invokes no after-write hook. -/
theorem C3_afterSet_fifo_gated :
    (∀ (v0 : JSVal) (a1 a2 : JSVal → JSVal),
      v0.isFn = false →
      (afterSet ((afterSet (Field.data v0) (totalH 1 a1)).2.1) (totalH 2 a2)).2.1
        = Field.acc (GetSlot.engine v0 [] none)
            (SetSlot.engine [] [totalH 1 a1, totalH 2 a2] false))
    ∧ (∀ (cached v : JSVal) (g a1 a2 : JSVal → JSVal) (ag : List Handler)
        (og : Option JSVal) (os : Bool),
      write (Field.acc (GetSlot.engine cached ag og)
               (SetSlot.engine [totalH 0 g] [totalH 1 a1, totalH 2 a2] os)) v
        = (Except.ok (g v),
           Field.acc (GetSlot.engine (g v) ag og)
             (SetSlot.engine [totalH 0 g] [totalH 1 a1, totalH 2 a2] os),
           Event.hookCall 0 v ::
             if strictEq (g v) cached then []
             else [Event.hookCall 1 (g v), Event.hookCall 2 (g v)]))
    ∧ (∀ (cached v : JSVal) (g a1 a2 : JSVal → JSVal) (ag : List Handler)
        (og : Option JSVal) (os : Bool),
      strictEq (g v) cached = true →
      write (Field.acc (GetSlot.engine cached ag og)
               (SetSlot.engine [totalH 0 g] [totalH 1 a1, totalH 2 a2] os)) v
        = (Except.ok (g v),
           Field.acc (GetSlot.engine (g v) ag og)
             (SetSlot.engine [totalH 0 g] [totalH 1 a1, totalH 2 a2] os),
           [Event.hookCall 0 v])) := by
  have main : ∀ (cached v : JSVal) (g a1 a2 : JSVal → JSVal) (ag : List Handler)
      (og : Option JSVal) (os : Bool),
      write (Field.acc (GetSlot.engine cached ag og)
               (SetSlot.engine [totalH 0 g] [totalH 1 a1, totalH 2 a2] os)) v
        = (Except.ok (g v),
           Field.acc (GetSlot.engine (g v) ag og)
             (SetSlot.engine [totalH 0 g] [totalH 1 a1, totalH 2 a2] os),
           Event.hookCall 0 v ::
             if strictEq (g v) cached then []
             else [Event.hookCall 1 (g v), Event.hookCall 2 (g v)]) := by
    intro cached v g a1 a2 ag og os
    have hset : set cached [totalH 0 g] [totalH 1 a1, totalH 2 a2] v
        = (Except.ok (g v), g v,
           Event.hookCall 0 v ::
             if strictEq (g v) cached then []
             else [Event.hookCall 1 (g v), Event.hookCall 2 (g v)]) := by
      have h1 : set cached [totalH 0 g] [totalH 1 a1, totalH 2 a2] v
          = if strictEq (g v) cached
            then (Except.ok (g v), g v, [Event.hookCall 0 v])
            else (Except.ok (g v), g v,
                  [Event.hookCall 0 v]
                    ++ [Event.hookCall 1 (g v), Event.hookCall 2 (g v)]) := rfl
      rw [h1]
      split <;> simp [*]
    show ((set cached [totalH 0 g] [totalH 1 a1, totalH 2 a2] v).1,
          Field.acc
            (GetSlot.engine (set cached [totalH 0 g] [totalH 1 a1, totalH 2 a2] v).2.1 ag og)
            (SetSlot.engine [totalH 0 g] [totalH 1 a1, totalH 2 a2] os),
          (set cached [totalH 0 g] [totalH 1 a1, totalH 2 a2] v).2.2) = _
    rw [hset]
  refine ⟨?_, main, ?_⟩
  · intro v0 a1 a2 hfn
    have h1 : afterSet (Field.data v0) (totalH 1 a1)
        = if v0.isFn then (Except.ok InstallOutcome.notApplicable, Field.data v0, [])
          else (Except.ok InstallOutcome.obj,
                Field.acc (GetSlot.engine v0 [] none)
                  (SetSlot.engine [] [totalH 1 a1] false), []) := rfl
    rw [hfn] at h1
    simp only [Bool.false_eq_true, if_false] at h1
    rw [h1]
    have hread : read (Field.acc (GetSlot.engine v0 [] none)
          (SetSlot.engine [] [totalH 1 a1] false))
        = (Except.ok v0,
           Field.acc (GetSlot.engine v0 [] none) (SetSlot.engine [] [totalH 1 a1] false),
           []) := by
      show ((get v0 [] none).1,
            Field.acc (GetSlot.engine (get v0 [] none).2.1 [] none)
              (SetSlot.engine [] [totalH 1 a1] false),
            (get v0 [] none).2.2) = _
      rw [get_nil_none]
    unfold afterSet
    rw [hread]
    simp [hfn, afterSetCore, ensureGet, ensureSet]
  · intro cached v g a1 a2 ag og os hsq
    rw [main cached v g a1 a2 ag og os, hsq]
    simp

theorem C3_afterSet_fifo_gated_witness :
    (afterSet ((afterSet (Field.data (JSVal.num 1)) (totalH 1 addOne)).2.1)
        (totalH 2 double)).2.1
      = Field.acc (GetSlot.engine (JSVal.num 1) [] none)
          (SetSlot.engine [] [totalH 1 addOne, totalH 2 double] false)
    ∧ write (Field.acc (GetSlot.engine (JSVal.num 1) [] none)
          (SetSlot.engine [totalH 0 fun _ => JSVal.num 1]
            [totalH 1 addOne, totalH 2 double] false)) (JSVal.num 7)
        = (Except.ok (JSVal.num 1),
           Field.acc (GetSlot.engine (JSVal.num 1) [] none)
             (SetSlot.engine [totalH 0 fun _ => JSVal.num 1]
               [totalH 1 addOne, totalH 2 double] false),
           [Event.hookCall 0 (JSVal.num 7)]) :=
  ⟨C3_afterSet_fifo_gated.1 (JSVal.num 1) addOne double (by decide),
   C3_afterSet_fifo_gated.2.2 (JSVal.num 1) (JSVal.num 7) (fun _ => JSVal.num 1)
     addOne double [] none false (by decide)⟩

/-- Claim C5: on a field whose current value is callable, beforeSet and
afterSet fail by returning the `false` sentinel (no raise), mutate no
handler chain and do not redefine the field's accessor, while afterGet on
the same field still succeeds and returns the object; afterGet never
returns the sentinel for any field whatsoever. -/
theorem C5_callable_guard :
    (∀ (k : Nat) (cb : Handler),
      beforeSet (Field.data (JSVal.fn k)) cb
          = (Except.ok InstallOutcome.notApplicable, Field.data (JSVal.fn k), [])
      ∧ afterSet (Field.data (JSVal.fn k)) cb
          = (Except.ok InstallOutcome.notApplicable, Field.data (JSVal.fn k), [])
      ∧ afterGet (Field.data (JSVal.fn k)) cb
          = (Except.ok InstallOutcome.obj,
             Field.acc (GetSlot.engine (JSVal.fn k) [cb] none)
               (SetSlot.engine [] [] false), []))
    ∧ (∀ (k : Nat) (cb : Handler) (og : Option JSVal) (s : SetSlot),
      beforeSet (Field.acc (GetSlot.engine (JSVal.fn k) [] og) s) cb
          = (Except.ok InstallOutcome.notApplicable,
             Field.acc (GetSlot.engine (JSVal.fn k) [] og) s, [])
      ∧ afterSet (Field.acc (GetSlot.engine (JSVal.fn k) [] og) s) cb
          = (Except.ok InstallOutcome.notApplicable,
             Field.acc (GetSlot.engine (JSVal.fn k) [] og) s, [])
      ∧ (afterGet (Field.acc (GetSlot.engine (JSVal.fn k) [] og) s) cb).1
          = Except.ok InstallOutcome.obj)
    ∧ ∀ (f : Field) (cb : Handler),
        (afterGet f cb).1 ≠ Except.ok InstallOutcome.notApplicable := by
  refine ⟨fun k cb => ⟨rfl, rfl, rfl⟩, fun k cb og s => ⟨rfl, rfl, rfl⟩, ?_⟩
  intro f cb
  unfold afterGet
  cases (read f).1 <;> simp

/-- Claim C6: an install of any of the three kinds on a field already under
interception (engine getter and setter present) reuses the existing chains:
afterGet appends to the existing afterGet chain, beforeSet prepends to the
existing beforeSet chain, afterSet appends to the existing afterSet chain,
and in each case the other two chains are kept unchanged — so no previously
registered hook is lost and each keeps its position.  (`w` is the value the
install-time read of the field produces; the read's update of the cached
value is the separate claim C9.) -/
theorem C6_install_reuses_chains :
    ∀ (v w : JSVal) (ag bf afs : List Handler) (og : Option JSVal) (os : Bool) (h : Handler),
      (get v ag og).1 = Except.ok w →
      w.isFn = false →
      afterGet (Field.acc (GetSlot.engine v ag og) (SetSlot.engine bf afs os)) h
          = (Except.ok InstallOutcome.obj,
             Field.acc (GetSlot.engine w (ag ++ [h]) og) (SetSlot.engine bf afs os),
             (get v ag og).2.2)
      ∧ beforeSet (Field.acc (GetSlot.engine v ag og) (SetSlot.engine bf afs os)) h
          = (Except.ok InstallOutcome.obj,
             Field.acc (GetSlot.engine w ag og) (SetSlot.engine (h :: bf) afs os),
             (get v ag og).2.2)
      ∧ afterSet (Field.acc (GetSlot.engine v ag og) (SetSlot.engine bf afs os)) h
          = (Except.ok InstallOutcome.obj,
             Field.acc (GetSlot.engine w ag og) (SetSlot.engine bf (afs ++ [h]) os),
             (get v ag og).2.2) := by
  intro v w ag bf afs og os h hok hfn
  have hst : (get v ag og).2.1 = w := get_store_of_ok v ag og w hok
  have hread : read (Field.acc (GetSlot.engine v ag og) (SetSlot.engine bf afs os))
      = (Except.ok w,
         Field.acc (GetSlot.engine w ag og) (SetSlot.engine bf afs os),
         (get v ag og).2.2) := by
    show ((get v ag og).1,
          Field.acc (GetSlot.engine (get v ag og).2.1 ag og) (SetSlot.engine bf afs os),
          (get v ag og).2.2) = _
    rw [hok, hst]
  refine ⟨?_, ?_, ?_⟩
  · unfold afterGet
    rw [hread]
    rfl
  · unfold beforeSet
    rw [hread]
    simp [hfn, beforeSetCore, ensureGet, ensureSet]
  · unfold afterSet
    rw [hread]
    simp [hfn, afterSetCore, ensureGet, ensureSet]

theorem C6_install_reuses_chains_witness :
    afterGet (Field.acc (GetSlot.engine (JSVal.num 0) [totalH 3 addOne] none)
        (SetSlot.engine [totalH 4 double] [totalH 6 double] false)) (totalH 9 addOne)
      = (Except.ok InstallOutcome.obj,
         Field.acc (GetSlot.engine (JSVal.num 1) [totalH 3 addOne, totalH 9 addOne] none)
           (SetSlot.engine [totalH 4 double] [totalH 6 double] false),
         [Event.hookCall 3 (JSVal.num 0)])
    ∧ beforeSet (Field.acc (GetSlot.engine (JSVal.num 0) [totalH 3 addOne] none)
        (SetSlot.engine [totalH 4 double] [totalH 6 double] false)) (totalH 9 addOne)
      = (Except.ok InstallOutcome.obj,
         Field.acc (GetSlot.engine (JSVal.num 1) [totalH 3 addOne] none)
           (SetSlot.engine [totalH 9 addOne, totalH 4 double] [totalH 6 double] false),
         [Event.hookCall 3 (JSVal.num 0)])
    ∧ afterSet (Field.acc (GetSlot.engine (JSVal.num 0) [totalH 3 addOne] none)
        (SetSlot.engine [totalH 4 double] [totalH 6 double] false)) (totalH 9 addOne)
      = (Except.ok InstallOutcome.obj,
         Field.acc (GetSlot.engine (JSVal.num 1) [totalH 3 addOne] none)
           (SetSlot.engine [totalH 4 double] [totalH 6 double, totalH 9 addOne] false),
         [Event.hookCall 3 (JSVal.num 0)]) :=
  C6_install_reuses_chains (JSVal.num 0) (JSVal.num 1) [totalH 3 addOne] [totalH 4 double]
    [totalH 6 double] none false (totalH 9 addOne) (by rfl) (by rfl)

/-- Claim C8: after one successful install on a previously plain data field,
the field has both a working read path and a working write path, and no
handler was added to the chains of the other kind: afterGet alone also
installs a pass-through setter (a write commits the incoming value, a read
then returns it through the afterGet chain), and beforeSet or afterSet
alone also install the engine getter (a read returns the stored value). -/
theorem C8_single_install_both_paths :
    (∀ (v w : JSVal) (g : JSVal → JSVal),
      afterGet (Field.data v) (totalH 1 g)
          = (Except.ok InstallOutcome.obj,
             Field.acc (GetSlot.engine v [totalH 1 g] none)
               (SetSlot.engine [] [] false), [])
      ∧ write (Field.acc (GetSlot.engine v [totalH 1 g] none)
            (SetSlot.engine [] [] false)) w
          = (Except.ok w,
             Field.acc (GetSlot.engine w [totalH 1 g] none)
               (SetSlot.engine [] [] false), [])
      ∧ read (Field.acc (GetSlot.engine w [totalH 1 g] none) (SetSlot.engine [] [] false))
          = (Except.ok (g w),
             Field.acc (GetSlot.engine (g w) [totalH 1 g] none)
               (SetSlot.engine [] [] false),
             [Event.hookCall 1 w]))
    ∧ (∀ (v : JSVal) (h : Handler), v.isFn = false →
      beforeSet (Field.data v) h
          = (Except.ok InstallOutcome.obj,
             Field.acc (GetSlot.engine v [] none) (SetSlot.engine [h] [] false), [])
      ∧ read (Field.acc (GetSlot.engine v [] none) (SetSlot.engine [h] [] false))
          = (Except.ok v,
             Field.acc (GetSlot.engine v [] none) (SetSlot.engine [h] [] false), []))
    ∧ (∀ (v : JSVal) (h : Handler), v.isFn = false →
      afterSet (Field.data v) h
          = (Except.ok InstallOutcome.obj,
             Field.acc (GetSlot.engine v [] none) (SetSlot.engine [] [h] false), [])
      ∧ read (Field.acc (GetSlot.engine v [] none) (SetSlot.engine [] [h] false))
          = (Except.ok v,
             Field.acc (GetSlot.engine v [] none) (SetSlot.engine [] [h] false), [])) := by
  refine ⟨fun v w g => ⟨rfl, ?_, ?_⟩, fun v h hfn => ⟨?_, ?_⟩, fun v h hfn => ⟨?_, ?_⟩⟩
  · have hset : set v [] [] w = (Except.ok w, w, ([] : List Event)) := by
      have h1 : set v [] [] w
          = if strictEq w v then (Except.ok w, w, ([] : List Event))
            else (Except.ok w, w, ([] : List Event)) := rfl
      rw [h1, ite_self]
    show ((set v [] [] w).1,
          Field.acc (GetSlot.engine (set v [] [] w).2.1 [totalH 1 g] none)
            (SetSlot.engine [] [] false),
          (set v [] [] w).2.2) = _
    rw [hset]
  · have hg : get w [totalH 1 g] none = (.ok (g w), g w, [Event.hookCall 1 w]) :=
      get_totalChain_none w [(1, g)]
    show ((get w [totalH 1 g] none).1,
          Field.acc (GetSlot.engine (get w [totalH 1 g] none).2.1 [totalH 1 g] none)
            (SetSlot.engine [] [] false),
          (get w [totalH 1 g] none).2.2) = _
    rw [hg]
  · have h1 : beforeSet (Field.data v) h
        = if v.isFn then (Except.ok InstallOutcome.notApplicable, Field.data v, [])
          else (Except.ok InstallOutcome.obj,
                Field.acc (GetSlot.engine v [] none) (SetSlot.engine [h] [] false),
                []) := rfl
    rw [hfn] at h1
    simpa using h1
  · show ((get v [] none).1,
          Field.acc (GetSlot.engine (get v [] none).2.1 [] none)
            (SetSlot.engine [h] [] false),
          (get v [] none).2.2) = _
    rw [get_nil_none]
  · have h1 : afterSet (Field.data v) h
        = if v.isFn then (Except.ok InstallOutcome.notApplicable, Field.data v, [])
          else (Except.ok InstallOutcome.obj,
                Field.acc (GetSlot.engine v [] none) (SetSlot.engine [] [h] false),
                []) := rfl
    rw [hfn] at h1
    simpa using h1
  · show ((get v [] none).1,
          Field.acc (GetSlot.engine (get v [] none).2.1 [] none)
            (SetSlot.engine [] [h] false),
          (get v [] none).2.2) = _
    rw [get_nil_none]

theorem C8_single_install_both_paths_witness :
    (beforeSet (Field.data (JSVal.num 2)) (totalH 8 double)
        = (Except.ok InstallOutcome.obj,
           Field.acc (GetSlot.engine (JSVal.num 2) [] none)
             (SetSlot.engine [totalH 8 double] [] false), [])
      ∧ read (Field.acc (GetSlot.engine (JSVal.num 2) [] none)
            (SetSlot.engine [totalH 8 double] [] false))
          = (Except.ok (JSVal.num 2),
             Field.acc (GetSlot.engine (JSVal.num 2) [] none)
               (SetSlot.engine [totalH 8 double] [] false), []))
    ∧ (afterSet (Field.data (JSVal.num 2)) (totalH 8 double)
        = (Except.ok InstallOutcome.obj,
           Field.acc (GetSlot.engine (JSVal.num 2) [] none)
             (SetSlot.engine [] [totalH 8 double] false), [])
      ∧ read (Field.acc (GetSlot.engine (JSVal.num 2) [] none)
            (SetSlot.engine [] [totalH 8 double] false))
          = (Except.ok (JSVal.num 2),
             Field.acc (GetSlot.engine (JSVal.num 2) [] none)
               (SetSlot.engine [] [totalH 8 double] false), [])) :=
  ⟨C8_single_install_both_paths.2.1 (JSVal.num 2) (totalH 8 double) (by rfl),
   C8_single_install_both_paths.2.2 (JSVal.num 2) (totalH 8 double) (by rfl)⟩

/-- Claim C9: every install call on a field already under interception
invokes the installed getter once during installation, which runs the whole
afterGet chain (the trace is exactly one pass over the chain) and
overwrites the cached value with the chain's result — so a later install
can change the value the next read starts from. -/
theorem C9_install_invokes_getter :
    ∀ (ps : List (Nat × (JSVal → JSVal))) (v : JSVal) (bf afs : List Handler)
      (os : Bool) (h : Handler),
      afterGet (Field.acc (GetSlot.engine v (totalChain ps) none)
            (SetSlot.engine bf afs os)) h
          = (Except.ok InstallOutcome.obj,
             Field.acc (GetSlot.engine (threadVals ps v) (totalChain ps ++ [h]) none)
               (SetSlot.engine bf afs os),
             totalEvts ps v)
      ∧ ((threadVals ps v).isFn = false →
        beforeSet (Field.acc (GetSlot.engine v (totalChain ps) none)
              (SetSlot.engine bf afs os)) h
            = (Except.ok InstallOutcome.obj,
               Field.acc (GetSlot.engine (threadVals ps v) (totalChain ps) none)
                 (SetSlot.engine (h :: bf) afs os),
               totalEvts ps v))
      ∧ ((threadVals ps v).isFn = false →
        afterSet (Field.acc (GetSlot.engine v (totalChain ps) none)
              (SetSlot.engine bf afs os)) h
            = (Except.ok InstallOutcome.obj,
               Field.acc (GetSlot.engine (threadVals ps v) (totalChain ps) none)
                 (SetSlot.engine bf (afs ++ [h]) os),
               totalEvts ps v)) := by
  intro ps v bf afs os h
  have hread : read (Field.acc (GetSlot.engine v (totalChain ps) none)
        (SetSlot.engine bf afs os))
      = (Except.ok (threadVals ps v),
         Field.acc (GetSlot.engine (threadVals ps v) (totalChain ps) none)
           (SetSlot.engine bf afs os),
         totalEvts ps v) := by
    show ((get v (totalChain ps) none).1,
          Field.acc (GetSlot.engine (get v (totalChain ps) none).2.1 (totalChain ps) none)
            (SetSlot.engine bf afs os),
          (get v (totalChain ps) none).2.2) = _
    rw [get_totalChain_none]
  refine ⟨?_, fun hfn => ?_, fun hfn => ?_⟩
  · unfold afterGet
    rw [hread]
    rfl
  · unfold beforeSet
    rw [hread]
    simp [hfn, beforeSetCore, ensureGet, ensureSet]
  · unfold afterSet
    rw [hread]
    simp [hfn, afterSetCore, ensureGet, ensureSet]

theorem C9_install_invokes_getter_witness :
    beforeSet (Field.acc (GetSlot.engine (JSVal.num 1) [totalH 3 addOne] none)
          (SetSlot.engine [] [] false)) (totalH 9 double)
        = (Except.ok InstallOutcome.obj,
           Field.acc (GetSlot.engine (JSVal.num 2) [totalH 3 addOne] none)
             (SetSlot.engine [totalH 9 double] [] false),
           [Event.hookCall 3 (JSVal.num 1)])
    ∧ afterSet (Field.acc (GetSlot.engine (JSVal.num 1) [totalH 3 addOne] none)
          (SetSlot.engine [] [] false)) (totalH 9 double)
        = (Except.ok InstallOutcome.obj,
           Field.acc (GetSlot.engine (JSVal.num 2) [totalH 3 addOne] none)
             (SetSlot.engine [] [totalH 9 double] false),
           [Event.hookCall 3 (JSVal.num 1)]) :=
  ⟨(C9_install_invokes_getter [(3, addOne)] (JSVal.num 1) [] [] false
      (totalH 9 double)).2.1 (by rfl),
   (C9_install_invokes_getter [(3, addOne)] (JSVal.num 1) [] [] false
      (totalH 9 double)).2.2 (by rfl)⟩

end PropertyInterceptor
